import Mathlib

/-!
Shallow embedding of the chess engine in `src/engine.rs` of the
`wdcs-pruthvithakor/chess-rust` repository.

Conventions of the embedding:
* `usize` board coordinates become `Nat`; signed intermediate coordinates
  (`isize` in the source) become `Int`, with the same bounds checks the
  source performs before casting back with `as usize` (here `Int.toNat`).
* `i32` scores become `Int`; the source never exercises `i32` wrap-around
  (scores stay far from the representable bounds, and `i32::MIN`/`i32::MAX`
  are only compared, never negated or offset except as `i32::MIN + 1` /
  `i32::MAX - 1`), so the named constants below carry the exact values.
* Board squares are stored as an 8 x 8 `List (List (Option Piece))`; the
  accessor `pieceAt` returns `none` out of bounds.  All source accesses mirrored
  here are guarded in-bounds by the source itself except where a comment
  says otherwise.
* Vectors become `List`, `Vec::push`/`extend` become list append in the same
  order, so the generated move order is exactly the source's.
-/

inductive Color where
  | White
  | Black
deriving DecidableEq, Repr

inductive PieceType where
  | King
  | Queen
  | Rook
  | Bishop
  | Knight
  | Pawn
deriving DecidableEq, Repr

structure Piece where
  color : Color
  kind : PieceType
deriving DecidableEq, Repr

/-- Mirrors `struct Board` (engine.rs:43-50): an 8 x 8 grid of optional
pieces plus the half-move clock, the two castling flags and the optional
en-passant target square. -/
structure Board where
  squares : List (List (Option Piece))
  half_move_clock : Nat
  white_castle_possible : Bool
  black_castle_possible : Bool
  en_passant_target : Option (Nat × Nat)
deriving DecidableEq, Repr

abbrev Square := Nat × Nat

abbrev Move := Square × Square

/-- Reads `squares[r][c]`; out-of-bounds indices give `none` (the source
panics there instead, but every mirrored access is in bounds unless noted). -/
def pieceAt (b : Board) (r c : Nat) : Option Piece :=
  (((b.squares.get? r).getD []).get? c).getD none

/-- Writes `squares[r][c] = p` (no-op out of bounds, unreached). -/
def setSq (b : Board) (r c : Nat) (p : Option Piece) : Board :=
  { b with squares := b.squares.set r (((b.squares.get? r).getD []).set c p) }

def emptyBoard : Board :=
  { squares := List.replicate 8 (List.replicate 8 none)
    half_move_clock := 0
    white_castle_possible := true
    black_castle_possible := true
    en_passant_target := none }

/-- Builds a board by placing the listed pieces on the empty board. -/
def boardOf (ps : List (Nat × Nat × Piece)) : Board :=
  ps.foldl (fun b x => setSq b x.1 x.2.1 (some x.2.2)) emptyBoard

/-- Mirrors `Board::new` (engine.rs:53-147): the canonical starting
position. -/
def Board.new : Board :=
  let withPawns :=
    (List.range 8).foldl
      (fun b col =>
        setSq (setSq b 1 col (some ⟨Color.White, PieceType.Pawn⟩))
          6 col (some ⟨Color.Black, PieceType.Pawn⟩))
      emptyBoard
  ([((0 : Nat), (4 : Nat), Piece.mk Color.White PieceType.King),
    (7, 4, ⟨Color.Black, PieceType.King⟩),
    (0, 3, ⟨Color.White, PieceType.Queen⟩),
    (7, 3, ⟨Color.Black, PieceType.Queen⟩),
    (0, 0, ⟨Color.White, PieceType.Rook⟩),
    (7, 0, ⟨Color.Black, PieceType.Rook⟩),
    (0, 7, ⟨Color.White, PieceType.Rook⟩),
    (7, 7, ⟨Color.Black, PieceType.Rook⟩),
    (0, 1, ⟨Color.White, PieceType.Knight⟩),
    (7, 1, ⟨Color.Black, PieceType.Knight⟩),
    (0, 6, ⟨Color.White, PieceType.Knight⟩),
    (7, 6, ⟨Color.Black, PieceType.Knight⟩),
    (0, 2, ⟨Color.White, PieceType.Bishop⟩),
    (7, 2, ⟨Color.Black, PieceType.Bishop⟩),
    (0, 5, ⟨Color.White, PieceType.Bishop⟩),
    (7, 5, ⟨Color.Black, PieceType.Bishop⟩)]).foldl
    (fun b x => setSq b x.1 x.2.1 (some x.2.2)) withPawns

/-- Mirrors `opposite_color` (engine.rs:702-707). -/
def opposite_color : Color → Color
  | Color.White => Color.Black
  | Color.Black => Color.White

/-- Loop body of `generate_moves_in_direction` (engine.rs:340-366).  The
source's `while` walks at most 7 in-bounds steps (the step is a fixed
nonzero direction on an 8 x 8 board), so fuel 8 is never exhausted. -/
def gmidGo (b : Board) (row col : Nat) (p : Piece) (dr dc : Int) :
    Nat → Int → Int → List Move
  | 0, _, _ => []
  | fuel + 1, r, c =>
    if 0 ≤ r ∧ r < 8 ∧ 0 ≤ c ∧ c < 8 then
      match pieceAt b r.toNat c.toNat with
      | some dest =>
        if dest.color ≠ p.color then [((row, col), (r.toNat, c.toNat))] else []
      | none =>
        ((row, col), (r.toNat, c.toNat)) ::
          gmidGo b row col p dr dc fuel (r + dr) (c + dc)
    else []

/-- Mirrors `generate_moves_in_direction` (engine.rs:340-366). -/
def generate_moves_in_direction (b : Board) (row col : Nat) (dr dc : Int)
    (p : Piece) : List Move :=
  gmidGo b row col p dr dc 8 ((row : Int) + dr) ((col : Int) + dc)

/-- Pawn branch of `generate_moves_for_piece` (engine.rs:160-207). -/
def pawnMoves (b : Board) (row col : Nat) (p : Piece) : List Move :=
  let direction : Int := match p.color with
    | Color.White => 1
    | Color.Black => -1
  let newRow : Int := (row : Int) + direction
  let single :=
    if 0 ≤ newRow ∧ newRow < 8 ∧ (pieceAt b newRow.toNat col).isNone then
      [((row, col), (newRow.toNat, col))]
    else []
  let startingRow : Nat := if p.color = Color.White then 1 else 6
  let double :=
    if row = startingRow ∧ (pieceAt b newRow.toNat col).isNone then
      let doubleRow := newRow + direction
      if 0 ≤ doubleRow ∧ doubleRow < 8 ∧ (pieceAt b doubleRow.toNat col).isNone then
        [((row, col), (doubleRow.toNat, col))]
      else []
    else []
  let diag := ([-1, 1] : List Int).foldl
    (fun acc dc =>
      let newCol : Int := (col : Int) + dc
      if 0 ≤ newRow ∧ newRow < 8 ∧ 0 ≤ newCol ∧ newCol < 8 then
        match pieceAt b newRow.toNat newCol.toNat with
        | some dest =>
          if dest.color ≠ p.color then
            acc ++ [((row, col), (newRow.toNat, newCol.toNat))]
          else acc
        | none => acc
      else acc)
    []
  let enPassant :=
    match b.en_passant_target with
    | some (targetRow, targetCol) =>
      if newRow = (targetRow : Int) ∧
          ((col : Int) + 1 = (targetCol : Int) ∨
            (col : Int) - 1 = (targetCol : Int)) then
        [((row, col), (newRow.toNat, targetCol))]
      else []
    | none => []
  single ++ double ++ diag ++ enPassant

/-- Knight offset moves, the first half of the Knight branch of
`generate_moves_for_piece` (engine.rs:208-235); the castling block that
follows in the source (engine.rs:236-258) is reattached below in
`generate_moves_for_piece`. -/
def knightOffsetMoves (b : Board) (row col : Nat) (p : Piece) : List Move :=
  ([(2, 1), (1, 2), (-1, 2), (-2, 1), (-2, -1), (-1, -2), (1, -2), (2, -1)] :
      List (Int × Int)).foldl
    (fun acc d =>
      let newRow : Int := (row : Int) + d.1
      let newCol : Int := (col : Int) + d.2
      if 0 ≤ newRow ∧ newRow < 8 ∧ 0 ≤ newCol ∧ newCol < 8 then
        match pieceAt b newRow.toNat newCol.toNat with
        | some dest =>
          if dest.color ≠ p.color then
            acc ++ [((row, col), (newRow.toNat, newCol.toNat))]
          else acc
        | none => acc ++ [((row, col), (newRow.toNat, newCol.toNat))]
      else acc)
    []

/-- King branch of `generate_moves_for_piece` (engine.rs:260-293).  Note the
source's King branch contains no castling logic (that block sits, dead, in
the Knight branch). -/
def kingMoves (b : Board) (row col : Nat) (p : Piece) : List Move :=
  ([(-1, -1), (-1, 0), (-1, 1), (0, -1), (0, 1), (1, -1), (1, 0), (1, 1)] :
      List (Int × Int)).foldl
    (fun acc d =>
      let newRow : Int := (row : Int) + d.1
      let newCol : Int := (col : Int) + d.2
      if 0 ≤ newRow ∧ newRow < 8 ∧ 0 ≤ newCol ∧ newCol < 8 then
        match pieceAt b newRow.toNat newCol.toNat with
        | some dest =>
          if dest.color ≠ p.color then
            acc ++ [((row, col), (newRow.toNat, newCol.toNat))]
          else acc
        | none => acc ++ [((row, col), (newRow.toNat, newCol.toNat))]
      else acc)
    []

/-- The castle-free part of `generate_moves_for_piece` (engine.rs:152-323):
identical to the source except that the Knight branch's trailing castling
block (engine.rs:236-258) is left out.  That block calls `can_castle`, which
in turn calls back into move generation through the attack scan; the source
recursion is benign only because `can_castle` insists on a King standing on
the from-square while the Knight branch always has a Knight there.  We
therefore define the castle-free generator first, build `can_castle` on it,
reattach the block in `generate_moves_for_piece`, and prove in
`generate_moves_for_piece_eq` that the block is always empty, so this
generator and the full one agree on every board. -/
def genP (b : Board) (row col : Nat) : List Move :=
  match pieceAt b row col with
  | none => []
  | some p =>
    match p.kind with
    | PieceType.Pawn => pawnMoves b row col p
    | PieceType.Knight => knightOffsetMoves b row col p
    | PieceType.King => kingMoves b row col p
    | PieceType.Queen =>
      generate_moves_in_direction b row col 1 0 p ++
      generate_moves_in_direction b row col (-1) 0 p ++
      generate_moves_in_direction b row col 0 1 p ++
      generate_moves_in_direction b row col 0 (-1) p ++
      generate_moves_in_direction b row col 1 1 p ++
      generate_moves_in_direction b row col 1 (-1) p ++
      generate_moves_in_direction b row col (-1) 1 p ++
      generate_moves_in_direction b row col (-1) (-1) p
    | PieceType.Rook =>
      generate_moves_in_direction b row col 1 0 p ++
      generate_moves_in_direction b row col (-1) 0 p ++
      generate_moves_in_direction b row col 0 1 p ++
      generate_moves_in_direction b row col 0 (-1) p
    | PieceType.Bishop =>
      generate_moves_in_direction b row col 1 1 p ++
      generate_moves_in_direction b row col 1 (-1) p ++
      generate_moves_in_direction b row col (-1) 1 p ++
      generate_moves_in_direction b row col (-1) (-1) p

/-- Mirrors `is_square_under_attack` (engine.rs:408-430): some opposite
colored piece has the square among its generated destinations.  Uses the
castle-free generator `genP`; `generate_moves_for_piece_eq` below shows this
agrees with the full generator the source calls. -/
def is_square_under_attack (b : Board) (row col : Nat) (color : Color) : Bool :=
  (List.range 8).any fun r =>
    (List.range 8).any fun c =>
      match pieceAt b r c with
      | some p =>
        p.color = opposite_color color ∧
          (genP b r c).any (fun m => m.2 = (row, col))
      | none => false

/-- Mirrors `find_king` (engine.rs:531-542): first king of the color in
row-major scan order. -/
def find_king (b : Board) (color : Color) : Option Square :=
  (List.range 8).findSome? fun r =>
    (List.range 8).findSome? fun c =>
      match pieceAt b r c with
      | some p =>
        if p.kind = PieceType.King ∧ p.color = color then some (r, c) else none
      | none => none

/-- Mirrors `is_in_check` (engine.rs:645-657); a missing king reports
"not in check". -/
def is_in_check (b : Board) (color : Color) : Bool :=
  match find_king b color with
  | none => false
  | some (kr, kc) => is_square_under_attack b kr kc color

/-- Mirrors `can_castle` (engine.rs:433-501). -/
def can_castle (b : Board) (from_ to_ : Square) : Bool :=
  if from_.2 = 4 ∧ (to_.2 = 6 ∨ to_.2 = 2) ∧ from_.1 = to_.1 then
    let color := if from_.1 = 0 then Color.White else Color.Black
    let kingside := to_.2 = 6
    let rookCol : Nat := if kingside then 7 else 0
    if color = Color.White ∧ ¬ b.white_castle_possible then false
    else if color = Color.Black ∧ ¬ b.black_castle_possible then false
    else
      match pieceAt b from_.1 from_.2 with
      | some kp =>
        if kp.kind = PieceType.King then
          if kp.color ≠ color then false
          else
            match pieceAt b from_.1 rookCol with
            | some rp =>
              if rp.kind = PieceType.Rook then
                if rp.color ≠ color then false
                else
                  let range : List Nat := if kingside then [5, 6] else [1, 2, 3]
                  if range.any (fun c => (pieceAt b from_.1 c).isSome) then false
                  else if is_in_check b color then false
                  else if range.any
                      (fun c => is_square_under_attack b from_.1 c color) then
                    false
                  else true
              else false
            | none => false
        else false
      | none => false
  else false

/-- Mirrors `castle` (engine.rs:504-529): re-checks `can_castle`, moves the
king and the rook, and clears the mover's castling flag.  Note it leaves the
half-move clock and the en-passant target untouched. -/
def castle (b : Board) (from_ to_ : Square) : Board :=
  if ¬ can_castle b from_ to_ then b
  else
    let row := from_.1
    let fromCol := from_.2
    let toCol := to_.2
    let kingside := toCol = 6
    let rookCol : Nat := if kingside then 7 else 0
    let newRookCol : Nat := if kingside then 5 else 3
    let king := pieceAt b row fromCol
    let b1 := setSq (setSq b row toCol king) row fromCol none
    let rook := pieceAt b1 row rookCol
    let b2 := setSq (setSq b1 row newRookCol rook) row rookCol none
    if row = 0 then { b2 with white_castle_possible := false }
    else { b2 with black_castle_possible := false }

/-- Mirrors `apply_move` (engine.rs:368-406).  A valid castle is delegated to
`castle` and returns immediately; otherwise the piece is moved with the
source's en-passant removal, half-move-clock update, queen promotion, and
en-passant-target bookkeeping, in the source's order.  An empty from-square
leaves the board unchanged. -/
def apply_move (b : Board) (m : Move) : Board :=
  let fr := m.1.1
  let fc := m.1.2
  let tr := m.2.1
  let tc := m.2.2
  if can_castle b (fr, fc) (tr, tc) then castle b (fr, fc) (tr, tc)
  else
    match pieceAt b fr fc with
    | none => b
    | some piece =>
      let b1 := setSq b fr fc none
      let b2 :=
        if piece.kind = PieceType.Pawn ∨ (pieceAt b1 tr tc).isSome then
          let b1' :=
            if some (tr, tc) = b1.en_passant_target then setSq b1 fr tc none
            else b1
          { b1' with half_move_clock := 0 }
        else { b1 with half_move_clock := b1.half_move_clock + 1 }
      let piece' :=
        if piece.kind = PieceType.Pawn ∧ (tr = 0 ∨ tr = 7) then
          { piece with kind := PieceType.Queen }
        else piece
      let b3 := setSq b2 tr tc (some piece')
      let b4 := { b3 with en_passant_target := none }
      if piece'.kind = PieceType.Pawn then
        let rowDiff := if tr > fr then tr - fr else fr - tr
        if rowDiff = 2 then
          { b4 with en_passant_target := some ((fr + tr) / 2, fc) }
        else b4
      else b4

/-- The Knight branch's trailing castling block (engine.rs:236-258),
re-reading the square and pushing `can_castle`-approved king destinations.
`generate_moves_for_piece_eq` proves it is always empty. -/
def knightCastleBlock (b : Board) (row col : Nat) : List Move :=
  match pieceAt b row col with
  | some p =>
    (if p.color = Color.White ∧ b.white_castle_possible then
      (if can_castle b (row, col) (row, 6) then [((row, col), (row, 6))] else []) ++
      (if can_castle b (row, col) (row, 2) then [((row, col), (row, 2))] else [])
    else []) ++
    (if p.color = Color.Black ∧ b.black_castle_possible then
      (if can_castle b (row, col) (row, 6) then [((row, col), (row, 6))] else []) ++
      (if can_castle b (row, col) (row, 2) then [((row, col), (row, 2))] else [])
    else [])
  | none => []

/-- Mirrors `generate_moves_for_piece` (engine.rs:152-323): the castle-free
moves, plus — only in the Knight branch, exactly as in the source — the
castling block. -/
def generate_moves_for_piece (b : Board) (row col : Nat) : List Move :=
  genP b row col ++
    (match pieceAt b row col with
     | some p =>
       if p.kind = PieceType.Knight then knightCastleBlock b row col else []
     | none => [])

/-- Mirrors `generate_all_moves` (engine.rs:326-338): moves of every piece of
the color, in row-major square order. -/
def generate_all_moves (b : Board) (color : Color) : List Move :=
  ((List.range 8).map fun r =>
    ((List.range 8).map fun c =>
      match pieceAt b r c with
      | some p =>
        if p.color = color then generate_moves_for_piece b r c else []
      | none => []).flatten).flatten

/-- Mirrors `is_valid_move` (engine.rs:659-699): bounds, source piece, the
castling shortcut, no same-color capture, membership in the piece's
generated moves, and the post-move own-check simulation. -/
def is_valid_move (b : Board) (from_ to_ : Square) : Bool :=
  if from_ = to_ ∨ 8 ≤ from_.1 ∨ 8 ≤ from_.2 ∨ 8 ≤ to_.1 ∨ 8 ≤ to_.2 then
    false
  else
    match pieceAt b from_.1 from_.2 with
    | none => false
    | some piece =>
      if can_castle b from_ to_ then true
      else if (match pieceAt b to_.1 to_.2 with
               | some target => target.color == piece.color
               | none => false) then false
      else if ¬ (from_, to_) ∈ generate_moves_for_piece b from_.1 from_.2 then
        false
      else if is_in_check (apply_move b (from_, to_)) piece.color then false
      else true

/-- The moves the spec calls "legal" for a color: pseudo-moves of the color
filtered through `is_valid_move` (the filter used by `is_checkmate` and
`is_stalemate`, engine.rs:563-567). -/
def legalMoves (b : Board) (color : Color) : List Move :=
  (generate_all_moves b color).filter fun m => is_valid_move b m.1 m.2

/-- Mirrors `is_checkmate` (engine.rs:544-569), with the
`find_king(color).unwrap()` panic modelled as `none`: the result is `some r`
exactly when the source returns `r` without panicking. -/
def is_checkmate (b : Board) (color : Color) : Option Bool :=
  if ¬ is_in_check b color then some false
  else
    match find_king b color with
    | none => none
    | some kingPos =>
      let kingMvs := generate_moves_for_piece b kingPos.1 kingPos.2
      if kingMvs.any (fun m =>
          ¬ is_in_check (apply_move b (kingPos, m.2)) color) then
        some false
      else some (legalMoves b color).isEmpty

/-- Plays a list of moves from a board, requiring each mover to own the
from-square piece and each move to pass `is_valid_move`, with the colors
alternating; this is how the GUI loop in `main.rs` drives the board, so any
`some` result is a position reachable in a real game. -/
def playValid : Board → Color → List Move → Option Board
  | b, _, [] => some b
  | b, c, m :: ms =>
    match pieceAt b m.1.1 m.1.2 with
    | some p =>
      if p.color = c ∧ is_valid_move b m.1 m.2 then
        playValid (apply_move b m) (opposite_color c) ms
      else none
    | none => none

/-- A board is reachable when some alternating sequence of accepted moves
produces it from the starting position. -/
def Reachable (b : Board) : Prop :=
  ∃ ms : List Move, playValid Board.new Color.White ms = some b

/-- The exact value of `i32::MIN`. -/
def i32Min : Int := -2147483648

/-- The exact value of `i32::MAX`. -/
def i32Max : Int := 2147483647

/-- Mirrors `enum MoveType` (engine.rs:721-726). -/
inductive MoveType where
  | Exact
  | LowerBound
  | UpperBound
deriving DecidableEq, Repr

/-- Mirrors `struct TranspositionEntry` (engine.rs:714-719). -/
structure TranspositionEntry where
  value : Int
  depth : Nat
  move_type : MoveType
deriving DecidableEq, Repr

/-- The transposition table (engine.rs:777-795): a map from 64-bit position
keys to entries, embedded as an association list with `HashMap::insert`
semantics (replace the existing key, else add a binding). -/
abbrev TT := List (Nat × TranspositionEntry)

/-- Mirrors `TranspositionTable::new` (engine.rs:782-786). -/
def ttNew : TT := []

/-- Mirrors `TranspositionTable::get` (engine.rs:788-790). -/
def ttGet (tt : TT) (key : Nat) : Option TranspositionEntry :=
  (List.find? (fun e => e.1 = key) tt).map (·.2)

/-- Mirrors `TranspositionTable::insert` (engine.rs:792-794), i.e.
`HashMap::insert`: overwrite the binding when the key is present, otherwise
add one.  There is no capacity check and no eviction in the source. -/
def ttInsert (tt : TT) (key : Nat) (e : TranspositionEntry) : TT :=
  if tt.any (fun p => p.1 = key) then
    tt.map fun p => if p.1 = key then (key, e) else p
  else tt ++ [(key, e)]

/-- The number of entries held by the table. -/
def ttSize (tt : TT) : Nat := List.length tt

/-- A Zobrist key table (engine.rs:732-754): one 64-bit key per
(piece type, color, square).  The source draws the keys at random once per
search; the embedding abstracts over any such table, so every theorem about
hashing holds for every draw.  A concrete table must keep its values below
`2 ^ 64` to be a possible draw. -/
abbrev ZK := PieceType → Color → Nat → Nat → Nat

/-- Mirrors `compute_board_hash` (engine.rs:761-774): XOR of the keys of all
occupied squares (`get_key_for_position`'s `unwrap` never fails because the
source populates every triple). -/
def compute_board_hash (zk : ZK) (b : Board) : Nat :=
  (List.range 8).foldl
    (fun h r =>
      (List.range 8).foldl
        (fun h c =>
          match pieceAt b r c with
          | some p => Nat.xor h (zk p.kind p.color r c)
          | none => h)
        h)
    0

/-- Mirrors `get_piece_value` (engine.rs:821-830). -/
def get_piece_value (p : Piece) : Int :=
  match p.kind with
  | PieceType.Pawn => 100
  | PieceType.Knight => 320
  | PieceType.Bishop => 330
  | PieceType.Rook => 500
  | PieceType.Queen => 900
  | PieceType.King => 20000

/-- Mirrors the use of `calculate_game_phase` (engine.rs:798-813):
the phase value `n / 32.0` (`n` = non-king piece count, an exact `f32`
quotient since 32 is a power of two) is only ever compared as
`game_phase > 0.8`.  With `0.8f32 = 13421773 / 2 ^ 24`, the comparison
`n / 32 > 0.8f32` holds exactly when `n ≥ 26`, which is what we embed. -/
def gamePhaseGt08 (b : Board) : Bool :=
  26 ≤ (List.range 8).foldl
    (fun n r =>
      (List.range 8).foldl
        (fun n c =>
          match pieceAt b r c with
          | some p => if p.kind ≠ PieceType.King then n + 1 else n
          | none => n)
        n)
    (0 : Nat)

/-- Mirrors `evaluate_king_safety` (engine.rs:1036-1085).  Caution: for a
White king on row 7 or a Black king on row 0 the source's pawn-shield row
(`king_row + 1` / `king_row - 1`) leaves the board and the source panics;
the embedding's total accessor scores no shield there instead.  No board
evaluated by the theorems below puts a king on those rows. -/
def evaluate_king_safety (b : Board) (color : Color) (kingRow kingCol : Nat) :
    Int :=
  let pawnRow : Nat := if color = Color.White then kingRow + 1 else kingRow - 1
  let colLo : Nat := kingCol - 1
  let colHi : Nat := min (kingCol + 1) 7
  let shield : Int :=
    ((List.range' colLo (colHi + 1 - colLo)).foldl
      (fun s col =>
        match pieceAt b pawnRow col with
        | some p =>
          if p.kind = PieceType.Pawn ∧ p.color = color then s + 10 else s
        | none => s)
      0)
  let attackPenalty :=
    (List.range 8).foldl
      (fun acc r =>
        (List.range 8).foldl
          (fun (acc : Int × Int) c =>
            match pieceAt b r c with
            | some p =>
              if p.color ≠ color then
                (generate_moves_for_piece b r c).foldl
                  (fun (acc : Int × Int) m =>
                    if (m.2.1 - (kingRow : Int)).natAbs ≤ 2 ∧
                        (m.2.2 - (kingCol : Int)).natAbs ≤ 2 then
                      (acc.1 + 1,
                        acc.2 -
                          (match p.kind with
                           | PieceType.Queen => 4
                           | PieceType.Rook => 2
                           | PieceType.Bishop => 1
                           | PieceType.Knight => 1
                           | _ => 0))
                    else acc)
                  acc
              else acc
            | none => acc)
          acc)
      ((0 : Int), (0 : Int))
  let attackingPieces := attackPenalty.1
  let safety := shield + attackPenalty.2
  if attackingPieces > 1 then safety - attackingPieces * 10 else safety

/-- Mirrors `evaluate_position` (engine.rs:866-1034).  In the source the
per-piece `piece_score` (material, piece-square tables, pawn structure,
bishop pair, mobility) is accumulated into a local that is never added to
`score`; the first-pass pawn-file/bishop statistics feed only that dead
local.  The returned value is exactly `development_score` (minor-piece and
central-pawn early-game bonuses; the early-queen penalty touches only the
dead local) plus White king safety minus Black king safety, which is what
the embedding computes. -/
def evaluate_position (b : Board) : Int :=
  let gp := gamePhaseGt08 b
  let developmentScore : Int :=
    (List.range 8).foldl
      (fun s r =>
        (List.range 8).foldl
          (fun (s : Int) c =>
            match pieceAt b r c with
            | some p =>
              if gp then
                match p.kind with
                | PieceType.Knight =>
                  if (p.color = Color.White ∧ r ≠ 7) ∨
                      (p.color = Color.Black ∧ r ≠ 0) then s + 30 else s
                | PieceType.Bishop =>
                  if (p.color = Color.White ∧ r ≠ 7) ∨
                      (p.color = Color.Black ∧ r ≠ 0) then s + 30 else s
                | PieceType.Pawn =>
                  if 3 ≤ r ∧ r ≤ 4 ∧ 2 ≤ c ∧ c ≤ 5 then s + 20 else s
                | _ => s
              else s
            | none => s)
          s)
      0
  let whiteSafety : Int :=
    match find_king b Color.White with
    | some (kr, kc) => evaluate_king_safety b Color.White kr kc
    | none => 0
  let blackSafety : Int :=
    match find_king b Color.Black with
    | some (kr, kc) => evaluate_king_safety b Color.Black kr kc
    | none => 0
  whiteSafety - blackSafety + developmentScore

/-- Mirrors `score_move` (engine.rs:1087-1097). -/
def score_move (b : Board) (m : Move) : Int :=
  (match pieceAt b m.2.1 m.2.2 with
   | some captured => get_piece_value captured
   | none => 0) +
  (if 2 ≤ m.2.1 ∧ m.2.1 ≤ 5 ∧ 2 ≤ m.2.2 ∧ m.2.2 ≤ 5 then 10 else 0)

/-- Stable insertion into a key-sorted list: walk past strictly smaller
keys, insert before the first equal-or-larger one. -/
def insSorted (key : Move → Int) (x : Move) : List Move → List Move
  | [] => [x]
  | y :: ys =>
    if key y < key x then y :: insSorted key x ys else x :: y :: ys

/-- Stable ascending sort by key, the behavior of `Vec::sort_by_key`
(engine.rs:1136, 1198): equal keys keep their original relative order,
which is the unique output of any stable ascending sort. -/
def sort_by_key (key : Move → Int) (l : List Move) : List Move :=
  l.foldr (insSorted key) []

/-- The transposition-table probe at node entry (engine.rs:1116-1129):
an entry deep enough either answers immediately (`some value`) or tightens
the alpha/beta window, answering as well if the window closes. -/
def ttProbe (e : Option TranspositionEntry) (depth : Nat)
    (alpha beta : Int) : Option Int × Int × Int :=
  match e with
  | none => (none, alpha, beta)
  | some entry =>
    if entry.depth ≥ depth then
      match entry.move_type with
      | MoveType.Exact => (some entry.value, alpha, beta)
      | MoveType.LowerBound =>
        let alpha := max alpha entry.value
        if alpha ≥ beta then (some entry.value, alpha, beta)
        else (none, alpha, beta)
      | MoveType.UpperBound =>
        let beta := min beta entry.value
        if alpha ≥ beta then (some entry.value, alpha, beta)
        else (none, alpha, beta)
    else (none, alpha, beta)

/-- Mirrors `alpha_beta` (engine.rs:1102-1187).  The shared, mutex-guarded
table becomes explicit state threaded through the move loop; the loop's
`break` becomes a stop flag.  At depth 0 the source consults the table and
then returns `evaluate_position(board)` directly — there is no quiescence
search anywhere in the source. -/
def alpha_beta (zk : ZK) : Nat → Board → Int → Int → Bool → Color → TT →
    Int × TT
  | 0, b, alpha, beta, _, _, tt =>
    (match ttProbe (ttGet tt (compute_board_hash zk b)) 0 alpha beta with
     | (some v, _, _) => (v, tt)
     | (none, _, _) => (evaluate_position b, tt))
  | d + 1, b, alpha, beta, maximizingPlayer, color, tt =>
    let key := compute_board_hash zk b
    let originalAlpha := alpha
    match ttProbe (ttGet tt key) (d + 1) alpha beta with
    | (some v, _, _) => (v, tt)
    | (none, alpha, beta) =>
      let moves := sort_by_key (fun m => -(score_move b m))
        (generate_all_moves b color)
      let st :=
        moves.foldl
          (fun (st : Int × Int × Int × TT × Bool) m =>
            let (bestEval, alpha, beta, tt, stop) := st
            if stop then st
            else
              let nb := apply_move b m
              match find_king nb color with
              | none => (bestEval, alpha, beta, tt, stop)
              | some kingPos =>
                if is_square_under_attack nb kingPos.1 kingPos.2 color then
                  (bestEval, alpha, beta, tt, stop)
                else
                  let r := alpha_beta zk d nb alpha beta (¬ maximizingPlayer)
                    (opposite_color color) tt
                  let bestEval' :=
                    if maximizingPlayer then max bestEval r.1
                    else min bestEval r.1
                  let alpha' :=
                    if maximizingPlayer then max alpha bestEval' else alpha
                  let beta' :=
                    if maximizingPlayer then beta else min beta bestEval'
                  (bestEval', alpha', beta', r.2, beta' ≤ alpha'))
          (if maximizingPlayer then i32Min else i32Max, alpha, beta, tt, false)
      let bestEval := st.1
      let betaEnd := st.2.2.1
      let ttEnd := st.2.2.2.1
      let moveType :=
        if bestEval ≤ originalAlpha then MoveType.UpperBound
        else if bestEval ≥ betaEnd then MoveType.LowerBound
        else MoveType.Exact
      (bestEval, ttInsert ttEnd key ⟨bestEval, d + 1, moveType⟩)

/-- Mirrors `improved_best_move_for_color` (engine.rs:815-1239).  The Rayon
root fan-out races workers over a shared best-(value, move) cell and a
shared table; the embedding runs the same per-move work sequentially in the
sorted move order (one admissible schedule).  The best move is updated only
on a strict improvement over the `i32::MIN` / `i32::MAX` starting value. -/
def improved_best_move_for_color (zk : ZK) (b : Board) (color : Color)
    (depth : Nat) : Option Move :=
  let moves := sort_by_key (fun m => -(score_move b m))
    (generate_all_moves b color)
  let st :=
    moves.foldl
      (fun (st : Int × Option Move × TT) m =>
        let (bestValue, bestMove, tt) := st
        let nb := apply_move b m
        match find_king nb color with
        | none => (bestValue, bestMove, tt)
        | some kingPos =>
          if is_square_under_attack nb kingPos.1 kingPos.2 color then
            (bestValue, bestMove, tt)
          else
            let r := alpha_beta zk (depth - 1) nb (i32Min + 1) (i32Max - 1)
              (color = Color.Black) (opposite_color color) tt
            if (color = Color.White ∧ r.1 > bestValue) ∨
                (color = Color.Black ∧ r.1 < bestValue) then
              (r.1, some m, r.2)
            else (bestValue, bestMove, r.2))
      (if color = Color.White then i32Min else i32Max, none, ttNew)
  st.2.1

/-- The castling test fails whenever the from-square does not hold a king:
`can_castle` (engine.rs:456-466) demands a King on `from` before any attack
scan, so the Knight branch's castling block can never fire. -/
theorem can_castle_requires_king (b : Board) (f t : Square) (p : Piece)
    (hp : pieceAt b f.1 f.2 = some p) (hk : p.kind ≠ PieceType.King) :
    can_castle b f t = false := by
  unfold can_castle
  split
  · rw [hp]
    simp [hk]
  · rfl

/-- The full generator and the castle-free generator agree on every board
and square: the only difference, the Knight branch's castling block, is
empty because `can_castle` requires a King on the from-square. -/
theorem generate_moves_for_piece_eq (b : Board) (r c : Nat) :
    generate_moves_for_piece b r c = genP b r c := by
  unfold generate_moves_for_piece
  cases hp : pieceAt b r c with
  | none => simp
  | some p =>
    by_cases hk : p.kind = PieceType.Knight
    · have h6 := can_castle_requires_king b (r, c) (r, 6) p hp (by rw [hk]; simp)
      have h2 := can_castle_requires_king b (r, c) (r, 2) p hp (by rw [hk]; simp)
      simp [hk, knightCastleBlock, hp, h6, h2]
    · simp [hk]

/-- Index of a piece type, used to build a concrete Zobrist key table. -/
def pieceTypeIdx : PieceType → Nat
  | PieceType.King => 0
  | PieceType.Queen => 1
  | PieceType.Rook => 2
  | PieceType.Bishop => 3
  | PieceType.Knight => 4
  | PieceType.Pawn => 5

/-- Index of a color, used to build a concrete Zobrist key table. -/
def colorIdx : Color → Nat
  | Color.White => 0
  | Color.Black => 1

/-- A concrete Zobrist key table: a fixed multiplicative spread of the 768
(piece type, color, square) indices over 64-bit values, one possible draw of
the source's per-search random table (all values are below `2 ^ 64`). -/
def zk0 : ZK := fun pt c r cl =>
  ((pieceTypeIdx pt * 2 + colorIdx c) * 64 + r * 8 + cl + 1) *
    11400714819323198485 % 18446744073709551616

/-- White king a1, Black pawns c1 and d1 boxing in the Black king at c2,
Black rook d8.  White is not in check and has exactly one legal move, the
king step a1-a2, after which Black mates by force in two plies (rook to d1
is impossible, rook to a8 then down is the killer: every continuation ends
with White's king caught on the a-file), so the depth-3 search value of
every surviving root move is exactly `i32::MIN`. -/
def c1Board : Board := boardOf
  [(0, 0, ⟨Color.White, PieceType.King⟩),
   (0, 2, ⟨Color.Black, PieceType.Pawn⟩),
   (0, 3, ⟨Color.Black, PieceType.Pawn⟩),
   (1, 2, ⟨Color.Black, PieceType.King⟩),
   (7, 3, ⟨Color.Black, PieceType.Rook⟩)]

/-- A castling-ready position: White king e1 and rook h1 with f1/g1 empty
and no attacker, Black king e8. -/
def c2Board : Board := boardOf
  [(0, 4, ⟨Color.White, PieceType.King⟩),
   (0, 7, ⟨Color.White, PieceType.Rook⟩),
   (7, 4, ⟨Color.Black, PieceType.King⟩)]

/-- The castling-ready position with a stale en-passant target recorded. -/
def c3Board : Board := { c2Board with en_passant_target := some (2, 3) }

/-- Board and key table differing from `c2Board` only in the non-placement
fields (castling flags, en-passant target, half-move clock). -/
def c8Board : Board :=
  { c2Board with
    white_castle_possible := false
    black_castle_possible := false
    en_passant_target := some (2, 3)
    half_move_clock := 77 }

/-- White rook d4 facing the Black queen f4 (an immediately available
capture), kings tucked on a1 and h8. -/
def c6Board : Board := boardOf
  [(0, 0, ⟨Color.White, PieceType.King⟩),
   (3, 3, ⟨Color.White, PieceType.Rook⟩),
   (3, 5, ⟨Color.Black, PieceType.Queen⟩),
   (7, 7, ⟨Color.Black, PieceType.King⟩)]

/-- Eight accepted plies from the starting position: White opens the g-file
and king-side minor pieces while Black walks the h-pawn to h2 via the g4
capture; after them White may castle king-side with a Black pawn on h2. -/
def c5seq : List Move :=
  [((1, 6), (3, 6)), ((6, 7), (4, 7)), ((0, 6), (2, 5)), ((4, 7), (3, 6)),
   ((1, 4), (2, 4)), ((3, 6), (2, 6)), ((0, 5), (1, 4)), ((2, 6), (1, 7))]

/-- The reachable position after `c5seq`. -/
def c5Board : Board := (playValid Board.new Color.White c5seq).getD Board.new

/-- C2: the claim fails on the code.  On the castling-ready `c2Board` the
castling preconditions hold for the king on its home square e1
(`can_castle` accepts e1-g1), yet `generate_moves_for_piece` applied to the
king's square does not return the castling candidate: the source's castling
block sits in the Knight match arm (engine.rs:236-258), where `can_castle`
always fails, and the King arm (engine.rs:260-293) has no castling logic. -/
theorem c2_castle_missing_from_king_moves :
    pieceAt c2Board 0 4 = some ⟨Color.White, PieceType.King⟩ ∧
    can_castle c2Board (0, 4) (0, 6) = true ∧
    ((0, 4), (0, 6)) ∉ generate_moves_for_piece c2Board 0 4 := by
  refine ⟨rfl, rfl, ?_⟩
  decide

/-- C3: the claim fails on the code.  On `c3Board` the castle e1-g1 is
accepted by `apply_move` (via `can_castle`), it is not a two-square pawn
advance, yet the en-passant target survives: the `castle` routine
(engine.rs:504-529) returns without touching `en_passant_target`, bypassing
the "reset on every move" line of `apply_move` (engine.rs:393). -/
theorem c3_castle_keeps_en_passant_target :
    is_valid_move c3Board (0, 4) (0, 6) = true ∧
    can_castle c3Board (0, 4) (0, 6) = true ∧
    (apply_move c3Board ((0, 4), (0, 6))).en_passant_target = some (2, 3) := by
  exact ⟨rfl, rfl, rfl⟩

/-- C4: the claim fails on the code.  Moving the White king off e1 with
`apply_move` leaves `white_castle_possible` at `true`: no code path of
`apply_move` (engine.rs:368-406) updates the castling flags; only an
executed castle (engine.rs:521-526) clears them. -/
theorem c4_king_move_keeps_castle_flag :
    pieceAt c2Board 0 4 = some ⟨Color.White, PieceType.King⟩ ∧
    is_valid_move c2Board (0, 4) (1, 4) = true ∧
    pieceAt (apply_move c2Board ((0, 4), (1, 4))) 1 4 =
      some ⟨Color.White, PieceType.King⟩ ∧
    (apply_move c2Board ((0, 4), (1, 4))).white_castle_possible = true := by
  exact ⟨rfl, rfl, rfl, rfl⟩

/-- C5: the claim fails on the code.  `c5Board` is reachable (the eight
accepted plies of `c5seq` produce it), the king-side castle e1-g1 is
accepted by the legal-move filter `is_valid_move` through its `can_castle`
shortcut, yet after applying it White's own king on g1 stands attacked by
the Black pawn on h2: `can_castle` checks attacks only on the pre-move
board, where the pawn's diagonal onto the then-empty g1 counts as no attack
(engine.rs:187-199 generates diagonal pawn moves only onto occupied
squares), and `is_valid_move` (engine.rs:672-674) skips the post-move check
for castles. -/
theorem c5_accepted_castle_leaves_king_attacked :
    playValid Board.new Color.White c5seq = some c5Board ∧
    is_valid_move c5Board (0, 4) (0, 6) = true ∧
    find_king (apply_move c5Board ((0, 4), (0, 6))) Color.White =
      some (0, 6) ∧
    is_square_under_attack (apply_move c5Board ((0, 4), (0, 6))) 0 6
      Color.White = true := by
  exact ⟨rfl, rfl, rfl, rfl⟩

/-- C5 (amended): every non-castling move accepted by `is_valid_move` does
leave the mover not in check on the board after the move — the acceptance
path ends in exactly that simulation (engine.rs:690-696); only the castling
shortcut bypasses it. -/
theorem c5_noncastling_accepted_move_not_in_check (b : Board)
    (f t : Square) (p : Piece) (hp : pieceAt b f.1 f.2 = some p)
    (hv : is_valid_move b f t = true) (hc : can_castle b f t = false) :
    is_in_check (apply_move b (f, t)) p.color = false := by
  by_cases hD : is_in_check (apply_move b (f, t)) p.color = true
  · exfalso
    simp [is_valid_move, hp, hc, hD] at hv
  · simp at hD
    exact hD

/-- C5 (amended) witness: the opening pawn step e2-e3 from the starting
position is accepted, is no castle, and indeed leaves White not in check. -/
theorem c5_noncastling_witness :
    is_in_check (apply_move Board.new ((1, 4), (2, 4))) Color.White = false :=
  c5_noncastling_accepted_move_not_in_check Board.new (1, 4) (2, 4)
    ⟨Color.White, PieceType.Pawn⟩ rfl rfl rfl

/-- C6: the claim fails on the code.  On `c6Board` a capture (rook d4 takes
queen f4) is available to the side to move, yet the search at depth 0
returns exactly the static evaluation of the board: `alpha_beta`
(engine.rs:1131-1133) returns `evaluate_position(board)` the moment
`depth == 0`; no capture resolution of any kind follows. -/
theorem c6_depth_zero_ignores_pending_capture :
    ((3, 3), (3, 5)) ∈ generate_all_moves c6Board Color.White ∧
    pieceAt c6Board 3 5 = some ⟨Color.Black, PieceType.Queen⟩ ∧
    (alpha_beta zk0 0 c6Board (i32Min + 1) (i32Max - 1) true Color.White
        ttNew).1 = evaluate_position c6Board := by
  refine ⟨by decide, rfl, rfl⟩

/-- C6 (amended): with no stored entry for the position, the depth-0 search
value is the static evaluation of the board, for every key table, board,
window and side — there is no quiescence extension in the source. -/
theorem c6_depth_zero_returns_static_eval (zk : ZK) (b : Board)
    (alpha beta : Int) (mx : Bool) (c : Color) :
    alpha_beta zk 0 b alpha beta mx c ttNew = (evaluate_position b, ttNew) :=
  rfl

/-- An arbitrary fixed entry used to exercise the transposition table. -/
def sampleEntry : TranspositionEntry := ⟨0, 0, MoveType.Exact⟩

/-- Folds a list of (key, entry) inserts into the table. -/
def ttInsertAll (ops : List (Nat × TranspositionEntry)) (tt : TT) : TT :=
  ops.foldl (fun t p => ttInsert t p.1 p.2) tt

/-- Inserting the fresh keys `0, …, n-1` into the empty table stores them
all, in order. -/
theorem ttInsertAll_range (n : Nat) :
    ttInsertAll ((List.range n).map fun i => (i, sampleEntry)) ttNew =
      (List.range n).map fun i => (i, sampleEntry) := by
  induction n with
  | zero => rfl
  | succ n ih =>
    rw [List.range_succ, List.map_append]
    unfold ttInsertAll at ih ⊢
    rw [List.foldl_append, ih]
    simp only [List.map_cons, List.map_nil, List.foldl_cons, List.foldl_nil]
    unfold ttInsert
    have hfresh :
        (((List.range n).map fun i => (i, sampleEntry)).any
          fun p => p.1 = n) = false := by
      simp
      omega
    rw [hfresh]
    simp

/-- C7: the claim fails on the code.  There is no capacity bound at all:
`TranspositionTable::insert` (engine.rs:792-794) is a plain
`HashMap::insert`, so for every proposed bound a long-enough sequence of
fresh-key inserts grows the table past it. -/
theorem c7_no_capacity_bound :
    ¬ ∃ cap : Nat, ∀ ops : List (Nat × TranspositionEntry),
        ttSize (ttInsertAll ops ttNew) ≤ cap := by
  rintro ⟨cap, h⟩
  have h2 := h ((List.range (cap + 1)).map fun i => (i, sampleEntry))
  rw [ttInsertAll_range] at h2
  simp [ttSize] at h2

/-- C7 (amended): the table is an unbounded map — an insert never evicts:
it overwrites when the key is present and otherwise grows the table by
exactly one entry. -/
theorem c7_insert_never_evicts (tt : TT) (k : Nat) (e : TranspositionEntry) :
    ttSize (ttInsert tt k e) =
      if tt.any (fun p => p.1 = k) then ttSize tt else ttSize tt + 1 := by
  unfold ttInsert ttSize
  split <;> simp

/-- C8: the position hash reads nothing but the piece placement, so two
boards with identical `squares` hash identically under every key table,
whatever their castling flags, en-passant target or half-move clock
(`compute_board_hash`, engine.rs:761-774, scans only `board.squares`). -/
theorem c8_hash_depends_only_on_placement (zk : ZK) (b1 b2 : Board)
    (h : b1.squares = b2.squares) :
    compute_board_hash zk b1 = compute_board_hash zk b2 := by
  simp only [compute_board_hash, pieceAt, h]

/-- C8 witness: `c8Board` differs from `c2Board` in both castling flags, the
en-passant target and the half-move clock, yet hashes identically. -/
theorem c8_witness :
    compute_board_hash zk0 c2Board = compute_board_hash zk0 c8Board :=
  c8_hash_depends_only_on_placement zk0 c2Board c8Board rfl

/-- C9: `is_checkmate` never reaches a failing unwrap: the early
`!is_in_check` return (engine.rs:545-547) fires whenever the king is
missing, because `is_in_check` (engine.rs:650-653) reports `false` then, so
`find_king(color).unwrap()` (engine.rs:549) runs only with a king present.
In the embedding the unwrap is the `none` case of `is_checkmate`, and the
result is `some` on every board and color. -/
theorem c9_is_checkmate_never_panics (b : Board) (c : Color) :
    (is_checkmate b c).isSome = true := by
  unfold is_checkmate
  cases hfk : find_king b c with
  | none =>
    have hic : is_in_check b c = false := by
      unfold is_in_check
      rw [hfk]
    simp [hic]
  | some kp =>
    simp only [hfk]
    split
    · rfl
    · split <;> rfl

/-- C10: when the from-square is in bounds and empty and the move is no
valid castle, `apply_move` changes nothing: it falls through the castle
branch, finds no piece at `from` (engine.rs:374) and returns with the
squares, half-move clock, both castling flags and the en-passant target
untouched.  The bounds hypotheses delimit the claim to indices the source
can read without panicking. -/
theorem c10_apply_move_frame (b : Board) (f t : Square)
    (h1 : f.1 < 8) (h2 : f.2 < 8) (he : pieceAt b f.1 f.2 = none)
    (hc : can_castle b f t = false) :
    apply_move b (f, t) = b := by
  unfold apply_move
  simp [hc, he]

/-- C10 witness: the empty square d4 of the starting position, toward e5. -/
theorem c10_witness : apply_move Board.new ((3, 3), (4, 4)) = Board.new :=
  c10_apply_move_frame Board.new (3, 3) (4, 4) (by decide) (by decide) rfl rfl

/-- C1: the claim fails on the code.  On `c1Board` White (to move, depth 3)
has exactly one legal move, the king step a1-a2, yet the search returns
`none`: every surviving root move evaluates to exactly `i32::MIN` (White is
mated by force inside the horizon), and the root accumulator
(engine.rs:1191, 1229-1234) starts at `i32::MIN` and only accepts a move on
a strict improvement, so no move is ever recorded. -/
theorem c1_search_returns_none_despite_legal_move :
    legalMoves c1Board Color.White = [((0, 0), (1, 0))] ∧
    improved_best_move_for_color zk0 c1Board Color.White 3 = none := by
  exact ⟨rfl, rfl⟩
